import Mathlib

/-!
Verification of the GoldWen matching service core.

The Python source (`app/services/matching_service.py`,
`app/api/v1/endpoints/matching.py`, `app/models/user.py`,
`app/core/config.py`) is shallowly embedded below:

* SQLAlchemy tables become lists of records inside explicit state
  structures; queries become `List.filter` / `List.find?`; SQL
  `ORDER BY` and Python's stable `list.sort` become
  `List.insertionSort` (which is stable, matching CPython).
* `datetime` values become integer second counts; `date()` becomes
  Euclidean division by 86400 (`dateOf`).
* Python floats are idealized: exact rationals for the data plumbing
  and exact reals for the cosine-similarity arithmetic
  (`np.linalg.norm` becomes `Real.sqrt`).
* `calculate_compatibility_score` is embedded twice, at two levels of
  abstraction: once exactly (over the response table and the cache,
  producing a real number), and, for the selection pipeline, as an
  explicit function parameter `score : Nat → Nat → ℚ` standing for the
  value that `self.calculate_compatibility_score` returns for a pair
  (the service itself notes that this value is a deterministic
  function of the two users' immutable response vectors).
-/

namespace GoldWen

/-! ### Configuration (`app/core/config.py`) -/

def MAX_DAILY_PROFILES : Nat := 5

def MIN_DAILY_PROFILES : Nat := 3

/-- `COMPATIBILITY_THRESHOLD: float = 0.6`, as the exact rational 3/5
(written as a raw numerator/denominator pair so that kernel reduction
is not blocked by `Rat.div`, which is irreducible). -/
def COMPATIBILITY_THRESHOLD : ℚ := ⟨3, 5, by decide, by decide⟩

def PERSONALITY_QUESTIONS_COUNT : Nat := 10

/-! ### Time model

A `datetime` is a count of seconds (an integer); `date()` extraction is
floor division by the number of seconds per day.  `timedelta(days=n)`
and `timedelta(hours=n)` are plain multiplications. -/

def secondsPerDay : Int := 86400

def dateOf (t : Int) : Int := t / secondsPerDay

def startOfDay (t : Int) : Int := dateOf t * secondsPerDay

def days (n : Int) : Int := n * secondsPerDay

def hours (n : Int) : Int := n * 3600

/-! ### Cosine similarity (`MatchingService._cosine_similarity`)

Vectors are lists of exact rationals (the response values are small
integers in the source); the norm is a real number. -/

def dotProduct (vec1 vec2 : List ℚ) : ℚ :=
  (List.zipWith (fun a b => a * b) vec1 vec2).sum

def sumSq (vec : List ℚ) : ℚ :=
  (vec.map (fun x => x * x)).sum

noncomputable def vecNorm (vec : List ℚ) : ℝ :=
  Real.sqrt ((sumSq vec : ℚ) : ℝ)

/-- `_cosine_similarity` (matching_service.py lines 58-73): returns 0.0
on a length mismatch, 0.0 if either norm is zero, and otherwise the dot
product divided by the product of the two norms. -/
noncomputable def cosine_similarity (vec1 vec2 : List ℚ) : ℝ :=
  if vec1.length ≠ vec2.length then 0
  else if vecNorm vec1 = 0 ∨ vecNorm vec2 = 0 then 0
  else (dotProduct vec1 vec2 : ℝ) / (vecNorm vec1 * vecNorm vec2)

/-! ### Table rows (`app/models/user.py`) -/

structure User where
  id : Nat
  email : String
  first_name : String
  age : Int
  gender : String
  location_city : String
  location_latitude : Option ℚ
  location_longitude : Option ℚ
  is_premium : Bool
  is_active : Bool
deriving DecidableEq

structure PersonalityResponse where
  user_id : Nat
  question_id : Nat
  response_value : Int
deriving DecidableEq

structure DailySelection where
  user_id : Nat
  candidate_user_id : Nat
  compatibility_score : ℚ
  selection_date : Int
  rank_position : Nat
deriving DecidableEq

structure UserChoice where
  id : Nat
  user_id : Nat
  chosen_user_id : Nat
  choice_date : Int
  is_match : Bool
deriving DecidableEq

/-- A `compatibility_cache` row.  The score field is the exact real the
service computed (a cosine value). -/
structure CompatibilityCache where
  user1_id : Nat
  user2_id : Nat
  compatibility_score : ℝ
  calculated_at : Int

/-! ### Compatibility cache (`matching_service.py` lines 75-116 and the
canonicalizing `CompatibilityCache.__init__`, user.py lines 80-85) -/

/-- The `if user1_id > user2_id: swap` normalization performed both by
the service methods and by `CompatibilityCache.__init__`. -/
def canonicalPair (u1 u2 : Nat) : Nat × Nat :=
  if u1 > u2 then (u2, u1) else (u1, u2)

/-- `CompatibilityCache.__init__`: canonicalizes its arguments before
storing them. -/
def CompatibilityCache.make (u1 u2 : Nat) (score : ℝ) (now : Int) :
    CompatibilityCache :=
  ⟨(canonicalPair u1 u2).1, (canonicalPair u1 u2).2, score, now⟩

/-- `_get_cached_compatibility`: canonicalize, then return the score of
a row for the canonical pair computed within the last 24 hours. -/
def getCachedCompatibility (cache : List CompatibilityCache)
    (u1 u2 : Nat) (now : Int) : Option ℝ :=
  let p := canonicalPair u1 u2
  let cutoff := now - hours 24
  (cache.find? (fun e =>
    e.user1_id == p.1 && e.user2_id == p.2 &&
      decide (e.calculated_at > cutoff))).map (fun e => e.compatibility_score)

/-- `_cache_compatibility`: canonicalize, delete every row for the
canonical pair, then insert a fresh row (which canonicalizes again via
`CompatibilityCache.__init__`). -/
def cacheCompatibility (cache : List CompatibilityCache)
    (u1 u2 : Nat) (score : ℝ) (now : Int) : List CompatibilityCache :=
  let p := canonicalPair u1 u2
  (cache.filter (fun e => !(e.user1_id == p.1 && e.user2_id == p.2))) ++
    [CompatibilityCache.make u1 u2 score now]

/-- One cache interaction: `_get_cached_compatibility` reads (changing
nothing), `_cache_compatibility` writes. -/
inductive CacheOp where
  | read (u1 u2 : Nat) (now : Int)
  | write (u1 u2 : Nat) (score : ℝ) (now : Int)

def applyCacheOp (cache : List CompatibilityCache) : CacheOp → List CompatibilityCache
  | .read _ _ _ => cache
  | .write u1 u2 s now => cacheCompatibility cache u1 u2 s now

def runCacheOps (ops : List CacheOp) : List CompatibilityCache :=
  ops.foldl applyCacheOp []

def cachePairKey (e : CompatibilityCache) : Nat × Nat :=
  (e.user1_id, e.user2_id)

/-- Every row is stored under its canonical `(min, max)` key and no two
rows share a key. -/
def cacheWellFormed (cache : List CompatibilityCache) : Prop :=
  (∀ e ∈ cache, e.user1_id ≤ e.user2_id) ∧
    cache.Pairwise (fun a b => cachePairKey a ≠ cachePairKey b)

/-! ### Personality vectors and exact scoring
(`matching_service.py` lines 21-56) -/

/-- `_get_personality_vector`: the user's response rows ordered by
`question_id`; `None` unless exactly `PERSONALITY_QUESTIONS_COUNT` rows
exist. -/
def getPersonalityVector (responses : List PersonalityResponse)
    (uid : Nat) : Option (List ℚ) :=
  let rows := List.insertionSort (fun a b => a.question_id ≤ b.question_id)
    (responses.filter (fun r => r.user_id == uid))
  if rows.length ≠ PERSONALITY_QUESTIONS_COUNT then none
  else some (rows.map (fun r => (r.response_value : ℚ)))

/-- The state `calculate_compatibility_score` reads and writes. -/
structure ScoringDB where
  personality_responses : List PersonalityResponse
  compatibility_cache : List CompatibilityCache

/-- `calculate_compatibility_score` (lines 21-44): cached value if
fresh; else 0.0 when either vector is missing (the `if not responses`
guard — a present vector has exactly 10 entries, so the Python empty-
list case cannot arise); else the cosine similarity, which is also
written to the cache. -/
noncomputable def calculate_compatibility_score (db : ScoringDB)
    (u1 u2 : Nat) (now : Int) : ℝ × ScoringDB :=
  match getCachedCompatibility db.compatibility_cache u1 u2 now with
  | some s => (s, db)
  | none =>
    let v1 := getPersonalityVector db.personality_responses u1
    let v2 := getPersonalityVector db.personality_responses u2
    if v1.isNone || v2.isNone then (0, db)
    else
      let score := cosine_similarity (v1.getD []) (v2.getD [])
      (score, { db with
        compatibility_cache :=
          cacheCompatibility db.compatibility_cache u1 u2 score now })

/-! ### Choice recording (`endpoints/matching.py`, `make_user_choice`,
lines 99-160) -/

/-- The error outcomes of the endpoint: HTTP 404 for either missing
user, HTTP 429 for the daily limit. -/
inductive ApiError where
  | userNotFound
  | chosenUserNotFound
  | dailyLimitExceeded
deriving DecidableEq

structure UserChoiceResponse where
  id : Nat
  user_id : Nat
  chosen_user_id : Nat
  choice_date : Int
  is_match : Bool
deriving DecidableEq

/-- The state `make_user_choice` reads and writes (`next_choice_id`
models the autoincrement primary key). -/
structure ChoiceDB where
  users : List User
  user_choices : List UserChoice
  next_choice_id : Nat
deriving DecidableEq

/-- Set `is_match := true` on the first row of the reverse choice, as
`db.query(...).first()` followed by the in-place update does. -/
def setReverseMatched : List UserChoice → Nat → Nat → List UserChoice
  | [], _, _ => []
  | c :: cs, a, b =>
    if c.user_id == a && c.chosen_user_id == b then
      { c with is_match := true } :: cs
    else c :: setReverseMatched cs a b

/-- `make_user_choice` (lines 99-160): 404 checks for both users, the
daily-limit check (`choice_date >= start of today`, `3` for premium and
`1` otherwise), creation of the new `UserChoice` row, the date-unbounded
reverse lookup, and the mutual-match flag update.  The returned state is
the input state unchanged whenever an error is raised. -/
def make_user_choice (db : ChoiceDB) (user_id chosen_user_id : Nat)
    (now : Int) : ChoiceDB × Except ApiError UserChoiceResponse :=
  match db.users.find? (fun u => u.id == user_id) with
  | none => (db, .error .userNotFound)
  | some user =>
    match db.users.find? (fun u => u.id == chosen_user_id) with
    | none => (db, .error .chosenUserNotFound)
    | some _ =>
      let today_choices := (db.user_choices.filter (fun c =>
        c.user_id == user_id && decide (c.choice_date ≥ startOfDay now))).length
      let max_choices := if user.is_premium then 3 else 1
      if today_choices ≥ max_choices then (db, .error .dailyLimitExceeded)
      else
        let reverse_choice := db.user_choices.find? (fun c =>
          c.user_id == chosen_user_id && c.chosen_user_id == user_id)
        let matched := reverse_choice.isSome
        let updated := if matched then
            setReverseMatched db.user_choices chosen_user_id user_id
          else db.user_choices
        let new_choice : UserChoice :=
          ⟨db.next_choice_id, user_id, chosen_user_id, now, matched⟩
        ({ db with user_choices := updated ++ [new_choice],
                   next_choice_id := db.next_choice_id + 1 },
         .ok ⟨new_choice.id, user_id, chosen_user_id, now, matched⟩)

/-- The chooser's count of choice rows dated in the current UTC day
(the quantity named by the specification). -/
def todayChoiceCount (db : ChoiceDB) (uid : Nat) (now : Int) : Nat :=
  (db.user_choices.filter (fun c =>
    c.user_id == uid && decide (dateOf c.choice_date = dateOf now))).length

/-! ### Daily-selection pipeline (`matching_service.py` lines 118-282
and `endpoints/matching.py` lines 192-242)

`score uid cid` is the value `self.calculate_compatibility_score(uid,
cid)` returns for the pair — a deterministic function of the two users'
response vectors within the cache TTL window. -/

structure DailySelectionCandidate where
  user_id : Nat
  first_name : String
  age : Int
  location_city : String
  compatibility_score : ℚ
  rank_position : Nat
deriving DecidableEq

structure MatchDB where
  users : List User
  user_choices : List UserChoice
  daily_selections : List DailySelection
deriving DecidableEq

/-- `_get_excluded_user_ids` (lines 167-192): self, users chosen within
the last 30 days, candidates shown within the last 7 days; `list(set(…))`
deduplicates. -/
def _get_excluded_user_ids (db : MatchDB) (user_id : Nat) (now : Int) :
    List Nat :=
  let cutoff_date := now - days 30
  let chosen := (db.user_choices.filter (fun c =>
    c.user_id == user_id && decide (c.choice_date > cutoff_date))).map
      (fun c => c.chosen_user_id)
  let recent := (db.daily_selections.filter (fun s =>
    s.user_id == user_id && decide (s.selection_date > now - days 7))).map
      (fun s => s.candidate_user_id)
  (user_id :: (chosen ++ recent)).dedup

/-- Python truthiness of an optional float: `None` and `0.0` are falsy.
The subject-coordinate test in the source is `if user.location_latitude
and user.location_longitude:`. -/
def pyTruthy : Option ℚ → Bool
  | none => false
  | some v => !(v == 0)

/-- `_get_potential_candidates` (lines 194-217): active users outside
the exclusion list, of a different gender, within ten years of age;
when the subject's coordinates are truthy the candidate must have
non-null coordinates; the result is capped at 50 rows.  The candidate
order is the store's row order (the query has no `ORDER BY`). -/
def _get_potential_candidates (db : MatchDB) (user : User)
    (excluded_ids : List Nat) : List User :=
  (db.users.filter (fun c =>
    !(excluded_ids.contains c.id) && c.is_active &&
    !(c.gender == user.gender) &&
    decide ((c.age - user.age).natAbs ≤ 10) &&
    (if pyTruthy user.location_latitude && pyTruthy user.location_longitude
     then c.location_latitude.isSome && c.location_longitude.isSome
     else true))).take 50

/-- Python's `scored_candidates.sort(key=lambda x: x[1], reverse=True)`:
a stable sort, descending by score; ties keep their existing order. -/
def sortByScoreDesc (l : List (User × ℚ)) : List (User × ℚ) :=
  List.insertionSort (fun a b => a.2 ≥ b.2) l

/-- `for i, (candidate, score) in enumerate(top_candidates)` building
`DailySelectionCandidate`s with `rank_position = i + 1`. -/
def rankCandidates : Nat → List (User × ℚ) → List DailySelectionCandidate
  | _, [] => []
  | i, (c, s) :: rest =>
    ⟨c.id, c.first_name, c.age, c.location_city, s, i + 1⟩ ::
      rankCandidates (i + 1) rest

/-- `_store_daily_selection` (lines 219-243): the stored timestamp is
today at 12:00 UTC; rows for `(user_id, today)` are deleted and the new
rows appended. -/
def _store_daily_selection (db : MatchDB) (user_id : Nat)
    (candidates : List DailySelectionCandidate) (now : Int) : MatchDB :=
  let selection_date := startOfDay now + hours 12
  let kept := db.daily_selections.filter (fun s =>
    !(s.user_id == user_id && dateOf s.selection_date == dateOf selection_date))
  { db with daily_selections := kept ++ candidates.map (fun c =>
      ⟨user_id, c.user_id, c.compatibility_score, selection_date,
       c.rank_position⟩) }

/-- `generate_daily_selection` (lines 118-165): `[]` for an unknown
user; otherwise score the eligible candidates, keep those at or above
the threshold, stable-sort descending, take the top `MAX_DAILY_PROFILES`
(with the literal minimum-size fallback of lines 144-146), rank, store,
return. -/
def generate_daily_selection (score : Nat → Nat → ℚ) (db : MatchDB)
    (user_id : Nat) (now : Int) :
    MatchDB × List DailySelectionCandidate :=
  match db.users.find? (fun u => u.id == user_id) with
  | none => (db, [])
  | some user =>
    let excluded_ids := _get_excluded_user_ids db user_id now
    let candidates := _get_potential_candidates db user excluded_ids
    let scored_candidates := (candidates.map (fun c =>
      (c, score user_id c.id))).filter (fun p =>
        decide (p.2 ≥ COMPATIBILITY_THRESHOLD))
    let sorted := sortByScoreDesc scored_candidates
    let top_candidates := sorted.take MAX_DAILY_PROFILES
    let top_candidates :=
      if top_candidates.length < MIN_DAILY_PROFILES ∧
          sorted.length ≥ MIN_DAILY_PROFILES then
        sorted.take MIN_DAILY_PROFILES
      else top_candidates
    let selection_candidates := rankCandidates 0 top_candidates
    (_store_daily_selection db user_id selection_candidates now,
     selection_candidates)

/-- The query of `get_today_selection` (lines 249-257): today's rows for
the user, ordered by `rank_position`. -/
def todaySelections (db : MatchDB) (user_id : Nat) (now : Int) :
    List DailySelection :=
  List.insertionSort (fun a b => a.rank_position ≤ b.rank_position)
    (db.daily_selections.filter (fun s =>
      s.user_id == user_id && dateOf s.selection_date == dateOf now))

/-- `get_today_selection` (lines 245-282): return the stored selection
for today if any rows exist, skipping rows whose candidate user row is
gone; otherwise generate a fresh selection. -/
def get_today_selection (score : Nat → Nat → ℚ) (db : MatchDB)
    (user_id : Nat) (now : Int) :
    MatchDB × List DailySelectionCandidate :=
  let selections := todaySelections db user_id now
  if selections.isEmpty then generate_daily_selection score db user_id now
  else
    (db, selections.filterMap (fun s =>
      (db.users.find? (fun u => u.id == s.candidate_user_id)).map (fun u =>
        ⟨u.id, u.first_name, u.age, u.location_city,
         s.compatibility_score, s.rank_position⟩)))

/-! ### Ad-hoc candidate ranking (`endpoints/matching.py`,
`get_matching_candidates`, lines 192-242) -/

/-- Python's `x or d` for an optional integer: `None` and `0` give the
default. -/
def pyOrDefault : Option Int → Int → Int
  | none, d => d
  | some v, d => if v == 0 then d else v

/-- Python's `l[:k]`: the first `k` elements for `k ≥ 0`, everything but
the last `|k|` elements for negative `k`. -/
def pySlice (k : Int) (l : List α) : List α :=
  if 0 ≤ k then l.take k.toNat else l.take (l.length - k.natAbs)

/-- Scoring part of the `matching-candidates` endpoint: exclusion set
extended with the request's extra ids, eligibility filter, threshold,
stable descending sort. -/
def matchingScoredSorted (score : Nat → Nat → ℚ) (db : MatchDB)
    (request_user_id : Nat) (exclude_user_ids : List Nat) (now : Int) :
    List (User × ℚ) :=
  match db.users.find? (fun u => u.id == request_user_id) with
  | none => []
  | some user =>
    let all_excluded :=
      (_get_excluded_user_ids db request_user_id now ++ exclude_user_ids).dedup
    let candidates := _get_potential_candidates db user all_excluded
    sortByScoreDesc ((candidates.map (fun c =>
      (c, score request_user_id c.id))).filter (fun p =>
        decide (p.2 ≥ COMPATIBILITY_THRESHOLD)))

/-- `get_matching_candidates` (lines 192-242): 404 (`none`) for an
unknown user; otherwise the ranked slice of the sorted scored list with
`max_results = min(request.max_results or 5, 10)`. -/
def get_matching_candidates (score : Nat → Nat → ℚ) (db : MatchDB)
    (request_user_id : Nat) (exclude_user_ids : List Nat)
    (max_results : Option Int) (now : Int) :
    Option (List DailySelectionCandidate) :=
  if (db.users.find? (fun u => u.id == request_user_id)).isSome then
    some (rankCandidates 0
      (pySlice (min (pyOrDefault max_results 5) 10)
        (matchingScoredSorted score db request_user_id exclude_user_ids now)))
  else none

instance : IsTotal (User × ℚ) (fun a b => a.2 ≥ b.2) :=
  ⟨fun a b => le_total b.2 a.2⟩

instance : IsTrans (User × ℚ) (fun a b => a.2 ≥ b.2) :=
  ⟨fun _ _ _ h1 h2 => le_trans h2 h1⟩

/-! ### The specification's ordering rule (for comparison)

Modelled from the spec: "Sort qualifying candidates by score
descending; break ties by ascending candidate id for determinism."
This is the ordering the specification asserts the ranked output obeys;
it is compared against the source-derived pipeline above. -/

def specTieBreakOrdered (l : List DailySelectionCandidate) : Prop :=
  l.Pairwise (fun a b =>
    b.compatibility_score < a.compatibility_score ∨
      (a.compatibility_score = b.compatibility_score ∧ a.user_id < b.user_id))

/-! ### Concrete states used by witnesses and counterexamples -/

def femA : User := ⟨1, "a@x", "A", 25, "female", "P", none, none, false, true⟩

def manB : User := ⟨2, "b@x", "B", 27, "male", "L", none, none, false, true⟩

def manC : User := ⟨3, "c@x", "C", 26, "male", "M", none, none, false, true⟩

def manD : User := ⟨4, "d@x", "D", 24, "male", "N", none, none, false, true⟩

def manE : User := ⟨5, "e@x", "E", 28, "male", "O", none, none, false, true⟩

def manF : User := ⟨6, "f@x", "F", 25, "male", "Q", none, none, false, true⟩

/-- A score function giving 0.7 to candidates 2 and 3 and 0.5 to the
rest (raw rationals: `Rat.div` is irreducible). -/
def scoreC1 : Nat → Nat → ℚ := fun _ cid =>
  if cid ≤ 3 then ⟨7, 10, by decide, by decide⟩ else ⟨1, 2, by decide, by decide⟩

def scOne : Nat → Nat → ℚ := fun _ _ => 1

def dbC1 : MatchDB := ⟨[femA, manB, manC, manD, manE, manF], [], []⟩

def dbC4 : ChoiceDB := ⟨[femA, manB, manC], [⟨0, 1, 3, 50, false⟩], 7⟩

/-- A premium chooser with two choices already recorded today. -/
def femP : User := ⟨8, "p@x", "Pm", 25, "female", "P", none, none, true, true⟩

def dbC4p : ChoiceDB :=
  ⟨[femP, manB, manC, manD], [⟨0, 8, 3, 40, false⟩, ⟨1, 8, 4, 50, false⟩], 7⟩

/-- The same premium chooser after a third same-day choice. -/
def dbC4p3 : ChoiceDB :=
  ⟨[femP, manB, manC, manD, manE],
   [⟨0, 8, 3, 40, false⟩, ⟨1, 8, 4, 50, false⟩, ⟨2, 8, 5, 60, false⟩], 7⟩

def dbC5 : ChoiceDB := ⟨[femA, manB], [⟨0, 2, 1, 50, false⟩], 7⟩

def dbC6 : MatchDB := ⟨[femA, manB], [], []⟩

/-- User 1 chose user 2 at t = 105: at `now = 2592100` that choice is
inside the 30-day window, ten seconds later it no longer is. -/
def dbC7 : MatchDB := ⟨[femA, manB], [⟨0, 1, 2, 105, false⟩], []⟩

def manE25 : User := ⟨5, "e@x", "E", 25, "male", "O", none, none, false, true⟩

def manB25 : User := ⟨2, "b@x", "B", 25, "male", "L", none, none, false, true⟩

/-- Store order puts id 5 before id 2; both score 1. -/
def dbC8 : MatchDB := ⟨[femA, manE25, manB25], [], []⟩

/-- Latitude 0.0 is a present coordinate that Python truthiness treats
as absent. -/
def subjC9 : User := ⟨1, "a@x", "A", 25, "female", "P", some 0, some 5, false, true⟩

def candC9 : User := ⟨2, "b@x", "B", 27, "male", "L", none, none, false, true⟩

def dbC9 : MatchDB := ⟨[subjC9, candC9], [], []⟩

/-! ## Helper lemmas -/

theorem canonicalPair_comm (u1 u2 : Nat) :
    canonicalPair u1 u2 = canonicalPair u2 u1 := by
  unfold canonicalPair
  rcases Nat.lt_trichotomy u1 u2 with h | h | h
  · rw [if_neg (by omega), if_pos h]
  · subst h; rfl
  · rw [if_pos h, if_neg (by omega)]

theorem canonicalPair_le (u1 u2 : Nat) :
    (canonicalPair u1 u2).1 ≤ (canonicalPair u1 u2).2 := by
  unfold canonicalPair
  split <;> omega

theorem mem_rankCandidates {c : DailySelectionCandidate} :
    ∀ {i : Nat} {l : List (User × ℚ)}, c ∈ rankCandidates i l →
      ∃ p ∈ l, c.user_id = p.1.id ∧ c.first_name = p.1.first_name ∧
        c.age = p.1.age ∧ c.location_city = p.1.location_city ∧
        c.compatibility_score = p.2 := by
  intro i l
  induction l generalizing i with
  | nil => intro h; simp [rankCandidates] at h
  | cons p rest ih =>
    obtain ⟨u, s⟩ := p
    intro h
    rw [rankCandidates] at h
    rcases List.mem_cons.mp h with h | h
    · subst h
      exact ⟨(u, s), List.mem_cons_self _ _, rfl, rfl, rfl, rfl, rfl⟩
    · obtain ⟨q, hq, hf⟩ := ih h
      exact ⟨q, List.mem_cons_of_mem _ hq, hf⟩

theorem length_rankCandidates :
    ∀ (i : Nat) (l : List (User × ℚ)), (rankCandidates i l).length = l.length
  | _, [] => rfl
  | i, (u, s) :: rest => by
    rw [rankCandidates, List.length_cons, List.length_cons,
      length_rankCandidates]

theorem mem_potential_candidates {db : MatchDB} {user : User}
    {excluded : List Nat} {c : User}
    (hc : c ∈ _get_potential_candidates db user excluded) :
    c ∈ db.users ∧ excluded.contains c.id = false ∧ c.is_active = true ∧
      c.gender ≠ user.gender ∧ (c.age - user.age).natAbs ≤ 10 ∧
      ((pyTruthy user.location_latitude &&
          pyTruthy user.location_longitude) = true →
        c.location_latitude.isSome = true ∧
          c.location_longitude.isSome = true) := by
  unfold _get_potential_candidates at hc
  have hmem := List.take_subset 50 _ hc
  rw [List.mem_filter] at hmem
  obtain ⟨hin, hpred⟩ := hmem
  simp only [Bool.and_eq_true, Bool.not_eq_true', beq_iff_eq,
    decide_eq_true_eq] at hpred
  obtain ⟨⟨⟨⟨hexcl, hact⟩, hgen⟩, hage⟩, hcoord⟩ := hpred
  refine ⟨hin, hexcl, hact, by
      intro h; rw [h, beq_self_eq_true] at hgen; exact absurd hgen (by decide),
    hage, fun h => ?_⟩
  obtain ⟨h1, h2⟩ := Bool.and_eq_true _ _ |>.mp h
  rw [if_pos ⟨h1, h2⟩] at hcoord
  exact ⟨(Bool.and_eq_true _ _).mp hcoord |>.1,
    (Bool.and_eq_true _ _).mp hcoord |>.2⟩

theorem mem_excluded_user_ids {db : MatchDB} {uid : Nat} {now : Int}
    {x : Nat} :
    x ∈ _get_excluded_user_ids db uid now ↔
      x = uid ∨
        (∃ ch ∈ db.user_choices, ch.user_id = uid ∧
          ch.choice_date > now - days 30 ∧ ch.chosen_user_id = x) ∨
        (∃ s ∈ db.daily_selections, s.user_id = uid ∧
          s.selection_date > now - days 7 ∧ s.candidate_user_id = x) := by
  unfold _get_excluded_user_ids
  simp only [List.mem_dedup, List.mem_cons, List.mem_append, List.mem_map,
    List.mem_filter, Bool.and_eq_true, beq_iff_eq, decide_eq_true_eq]
  constructor
  · rintro (h | ⟨ch, ⟨hm, hu, hd⟩, hx⟩ | ⟨s, ⟨hm, hu, hd⟩, hx⟩)
    · exact Or.inl h
    · exact Or.inr (Or.inl ⟨ch, hm, hu, hd, hx⟩)
    · exact Or.inr (Or.inr ⟨s, hm, hu, hd, hx⟩)
  · rintro (h | ⟨ch, hm, hu, hd, hx⟩ | ⟨s, hm, hu, hd, hx⟩)
    · exact Or.inl h
    · exact Or.inr (Or.inl ⟨ch, ⟨hm, hu, hd⟩, hx⟩)
    · exact Or.inr (Or.inr ⟨s, ⟨hm, hu, hd⟩, hx⟩)

/-- Everything `generate_daily_selection` returns comes from an
eligible candidate whose score passed the threshold, and carries that
candidate's attributes and score. -/
theorem generate_mem_characterize {score : Nat → Nat → ℚ} {db : MatchDB}
    {uid : Nat} {now : Int} {c : DailySelectionCandidate}
    (hc : c ∈ (generate_daily_selection score db uid now).2) :
    ∃ user, db.users.find? (fun u => u.id == uid) = some user ∧
      ∃ cand, cand ∈ _get_potential_candidates db user
          (_get_excluded_user_ids db uid now) ∧
        c.user_id = cand.id ∧ c.first_name = cand.first_name ∧
        c.age = cand.age ∧ c.location_city = cand.location_city ∧
        c.compatibility_score = score uid cand.id ∧
        COMPATIBILITY_THRESHOLD ≤ c.compatibility_score := by
  unfold generate_daily_selection at hc
  cases hfind : db.users.find? (fun u => u.id == uid) with
  | none => rw [hfind] at hc; simp at hc
  | some user =>
    rw [hfind] at hc
    simp only at hc
    obtain ⟨p, hp, hid, hname, hage, hcity, hscore⟩ := mem_rankCandidates hc
    have hsorted : p ∈ sortByScoreDesc
        ((( _get_potential_candidates db user
            (_get_excluded_user_ids db uid now)).map (fun c =>
          (c, score uid c.id))).filter (fun p =>
            decide (p.2 ≥ COMPATIBILITY_THRESHOLD))) := by
      rcases (by
        split at hp
        · exact Or.inl hp
        · exact Or.inr hp :
          p ∈ (sortByScoreDesc _).take MIN_DAILY_PROFILES ∨
            p ∈ (sortByScoreDesc _).take MAX_DAILY_PROFILES) with h | h
      · exact List.take_subset _ _ h
      · exact List.take_subset _ _ h
    rw [sortByScoreDesc, (List.perm_insertionSort _ _).mem_iff,
      List.mem_filter] at hsorted
    obtain ⟨hmap, hthr⟩ := hsorted
    obtain ⟨cand, hcand, hpe⟩ := List.mem_map.mp hmap
    refine ⟨user, rfl, cand, hcand, ?_⟩
    rw [← hpe] at hid hname hage hcity hscore
    rw [← hpe] at hthr
    simp only [decide_eq_true_eq] at hthr
    exact ⟨hid, hname, hage, hcity, hscore, hscore ▸ hthr⟩

theorem rankCandidates_map_score :
    ∀ (i : Nat) (l : List (User × ℚ)),
      (rankCandidates i l).map (fun c => c.compatibility_score) =
        l.map (fun p => p.2)
  | _, [] => rfl
  | i, (u, s) :: rest => by
    rw [rankCandidates, List.map_cons, List.map_cons,
      rankCandidates_map_score]

/-- Stability of the score sort: for every score value, the sub-list of
entries carrying that score is returned unchanged (this is exactly what
CPython's stable `list.sort` guarantees). -/
theorem orderedInsert_filter_score (x : User × ℚ) (q : ℚ) :
    ∀ l : List (User × ℚ),
      (List.orderedInsert (fun a b => a.2 ≥ b.2) x l).filter
          (fun p => p.2 == q) =
        if x.2 = q then x :: l.filter (fun p => p.2 == q)
        else l.filter (fun p => p.2 == q)
  | [] => by
    by_cases hxq : x.2 = q <;>
      simp [List.orderedInsert, List.filter_cons, hxq]
  | b :: bs => by
    rw [List.orderedInsert]
    split
    · by_cases hxq : x.2 = q <;> simp [List.filter_cons, hxq]
    · rename_i hnb
      rw [List.filter_cons, orderedInsert_filter_score x q bs,
        List.filter_cons]
      by_cases hbq : b.2 = q
      · have hxq : ¬ x.2 = q := fun hx =>
          hnb (ge_of_eq (hx.trans hbq.symm))
        simp [hbq, hxq]
      · by_cases hxq : x.2 = q <;> simp [hbq, hxq]

theorem sortByScoreDesc_filter_score (q : ℚ) (l : List (User × ℚ)) :
    (sortByScoreDesc l).filter (fun p => p.2 == q) =
      l.filter (fun p => p.2 == q) := by
  induction l with
  | nil => rfl
  | cons x xs ih =>
    simp only [sortByScoreDesc, List.insertionSort] at ih ⊢
    rw [orderedInsert_filter_score, ih, List.filter_cons]
    by_cases hxq : x.2 = q <;> simp [hxq]

theorem sortByScoreDesc_sorted (l : List (User × ℚ)) :
    (sortByScoreDesc l).Pairwise (fun a b => a.2 ≥ b.2) :=
  List.sorted_insertionSort _ l

/-! ## Claim theorems -/

/-- Claim C1.  The claimed minimum-size fallback can never admit a
sub-threshold candidate: `scored_candidates` is built with the
threshold filter already applied (line 137), so the fallback branch of
lines 144-146 compares two lengths that cannot satisfy its condition
together, and every returned candidate scores at or above the
threshold.  Concretely, with five eligible candidates of which two
score 0.7 and three score 0.5, the selection is those two candidates
only — not the top three of the full scored set as the claim states. -/
theorem generate_daily_selection_never_below_threshold :
    ((generate_daily_selection scoreC1 dbC1 1 0).2).map
        (fun c => c.user_id) = [2, 3] ∧
    (_get_potential_candidates dbC1 femA
        (_get_excluded_user_ids dbC1 1 0)).length = 5 ∧
    ((generate_daily_selection scoreC1 dbC1 1 0).2).all
      (fun c => decide (COMPATIBILITY_THRESHOLD ≤ c.compatibility_score)) =
      true ∧
    ((generate_daily_selection scoreC1 dbC1 1 0).2).length <
      MIN_DAILY_PROFILES := by
  refine ⟨by decide, by decide, by decide, by decide⟩

/-- Claim C8 (counterexample).  With two candidates of equal score
stored in the order id 5, id 2, the generated selection keeps that
store order, so it is not sorted by the specification's
score-descending id-ascending rule. -/
theorem generate_daily_selection_no_id_tiebreak :
    ((generate_daily_selection scOne dbC8 1 0).2).map
        (fun c => c.user_id) = [5, 2] ∧
    ¬ specTieBreakOrdered (generate_daily_selection scOne dbC8 1 0).2 := by
  constructor
  · decide
  · intro h
    unfold specTieBreakOrdered at h
    have h52 : (generate_daily_selection scOne dbC8 1 0).2 =
        [⟨5, "E", 25, "O", 1, 1⟩, ⟨2, "B", 25, "L", 1, 2⟩] := by decide
    rw [h52] at h
    have := List.rel_of_pairwise_cons h (List.mem_singleton.mpr rfl)
    rcases this with h1 | ⟨_, h2⟩
    · exact absurd h1 (by decide)
    · exact absurd h2 (by decide)

/-- Claim C8 (amended).  The qualifying candidates are ordered by score
descending via a stable sort: scores are non-increasing down the
returned ranking, and candidates with equal scores keep the relative
order in which the store returned them (no id tie-break is applied). -/
theorem generate_daily_selection_sorted_stable :
    (∀ (score : Nat → Nat → ℚ) (db : MatchDB) (uid : Nat) (now : Int),
      ((generate_daily_selection score db uid now).2.map
          (fun c => c.compatibility_score)).Pairwise (fun a b => b ≤ a)) ∧
    (∀ (l : List (User × ℚ)) (q : ℚ),
      (sortByScoreDesc l).filter (fun p => p.2 == q) =
        l.filter (fun p => p.2 == q)) := by
  constructor
  · intro score db uid now
    unfold generate_daily_selection
    cases db.users.find? (fun u => u.id == uid) with
    | none => simp
    | some user =>
      simp only
      split
      all_goals
        rw [rankCandidates_map_score]
        refine List.Pairwise.map _ (fun a b h => h) ?_
        exact (sortByScoreDesc_sorted _).sublist (List.take_sublist _ _)
  · exact fun l q => sortByScoreDesc_filter_score q l

/-- Claim C9 (counterexample).  A subject whose latitude is the
present-but-falsy value 0.0 does not trigger the coordinate filter:
a candidate with no coordinates at all is returned. -/
theorem get_potential_candidates_zero_coordinate :
    subjC9.location_latitude = some 0 ∧
    subjC9.location_longitude = some 5 ∧
    candC9.location_latitude = none ∧
    candC9 ∈ _get_potential_candidates dbC9 subjC9 [] := by
  refine ⟨rfl, rfl, rfl, by decide⟩

/-- Claim C9 (amended).  Every candidate returned by the eligibility
filter is an active stored user outside the exclusion set, of a gender
different from the subject's, within ten years of the subject's age;
whenever the subject's coordinates are both non-null and nonzero
(Python truthiness of the floats), the candidate has non-null
coordinates; and at most 50 candidates are returned. -/
theorem get_potential_candidates_spec (db : MatchDB) (user : User)
    (excluded : List Nat) :
    (∀ c ∈ _get_potential_candidates db user excluded,
      c ∈ db.users ∧ c.is_active = true ∧ c.id ∉ excluded ∧
        c.gender ≠ user.gender ∧ (c.age - user.age).natAbs ≤ 10 ∧
        ((pyTruthy user.location_latitude = true ∧
            pyTruthy user.location_longitude = true) →
          c.location_latitude.isSome = true ∧
            c.location_longitude.isSome = true)) ∧
    (_get_potential_candidates db user excluded).length ≤ 50 := by
  constructor
  · intro c hc
    obtain ⟨hin, hexcl, hact, hgen, hage, hcoord⟩ :=
      mem_potential_candidates hc
    refine ⟨hin, hact, ?_, hgen, hage, fun h =>
      hcoord (by simp [h.1, h.2])⟩
    intro hmem
    rw [show excluded.contains c.id = excluded.elem c.id from rfl,
      List.elem_eq_true_of_mem hmem] at hexcl
    exact absurd hexcl (by decide)
  · unfold _get_potential_candidates
    rw [List.length_take]
    exact min_le_left _ _

/-- Claim C10.  In the ad-hoc ranking endpoint, `max_results = 0` is
treated exactly like an absent value (both give the default 5), any
value above 10 is capped at 10, and the `max_results = 0` response
holds at most 5 candidates and is nonempty whenever any candidate
qualified. -/
theorem get_matching_candidates_max_results (score : Nat → Nat → ℚ)
    (db : MatchDB) (uid : Nat) (ex : List Nat) (now : Int) :
    (get_matching_candidates score db uid ex (some 0) now =
      get_matching_candidates score db uid ex none now) ∧
    (∀ v : Int, 10 < v →
      get_matching_candidates score db uid ex (some v) now =
        get_matching_candidates score db uid ex (some 10) now) ∧
    (∀ l, get_matching_candidates score db uid ex (some 0) now = some l →
      l.length ≤ 5 ∧
        (matchingScoredSorted score db uid ex now ≠ [] → l ≠ [])) := by
  refine ⟨rfl, ?_, ?_⟩
  · intro v hv
    unfold get_matching_candidates
    have h0 : pyOrDefault (some v) 5 = v := by
      show (if (v == 0) = true then 5 else v) = v
      rw [if_neg (by simp; omega)]
    have h1 : min (pyOrDefault (some v) 5) 10 = 10 := by
      rw [h0]; omega
    have h2 : min (pyOrDefault (some 10) 5) 10 = 10 := by decide
    rw [h1, h2]
  · intro l hl
    unfold get_matching_candidates at hl
    split at hl
    · have hl' : l = rankCandidates 0 (pySlice (min (pyOrDefault (some 0) 5) 10)
          (matchingScoredSorted score db uid ex now)) := by
        cases hl; rfl
      have hps : pySlice (min (pyOrDefault (some 0) 5) 10)
          (matchingScoredSorted score db uid ex now) =
          (matchingScoredSorted score db uid ex now).take 5 := by
        show pySlice 5 _ = _
        unfold pySlice
        rw [if_pos (by omega), show (5 : Int).toNat = 5 from rfl]
      constructor
      · rw [hl', hps, length_rankCandidates, List.length_take]
        exact le_trans (min_le_left _ _) (le_refl 5)
      · intro hne
        rw [hl', hps]
        cases hs : matchingScoredSorted score db uid ex now with
        | nil => exact absurd hs hne
        | cons p rest =>
          obtain ⟨u, s⟩ := p
          rw [show List.take 5 ((u, s) :: rest) =
            (u, s) :: List.take 4 rest from rfl, rankCandidates]
          exact List.cons_ne_nil _ _
    · exact absurd hl (by simp)


/-! ## C2: cosine similarity -/

theorem sumSq_nonneg (v : List ℚ) : 0 ≤ sumSq v := by
  induction v with
  | nil => exact le_refl 0
  | cons x xs ih =>
    show 0 ≤ x * x + sumSq xs
    exact add_nonneg (mul_self_nonneg x) ih

theorem dotProduct_self (v : List ℚ) : dotProduct v v = sumSq v := by
  induction v with
  | nil => rfl
  | cons x xs ih =>
    show x * x + dotProduct xs xs = x * x + sumSq xs
    rw [ih]

theorem dotProduct_comm (v : List ℚ) :
    ∀ w : List ℚ, dotProduct v w = dotProduct w v := by
  induction v with
  | nil =>
    intro w
    cases w <;> rfl
  | cons x xs ih =>
    intro w
    cases w with
    | nil => rfl
    | cons y ys =>
      show x * y + dotProduct xs ys = y * x + dotProduct ys xs
      rw [mul_comm, ih]

theorem vecNorm_eq_zero_iff (v : List ℚ) : vecNorm v = 0 ↔ sumSq v = 0 := by
  unfold vecNorm
  rw [Real.sqrt_eq_zero']
  constructor
  · intro h
    have h' : sumSq v ≤ 0 := by exact_mod_cast h
    exact le_antisymm h' (sumSq_nonneg v)
  · intro h
    rw [h]
    exact_mod_cast le_refl (0 : ℝ)

theorem vecNorm_mul_self (v : List ℚ) :
    vecNorm v * vecNorm v = ((sumSq v : ℚ) : ℝ) :=
  Real.mul_self_sqrt (by exact_mod_cast sumSq_nonneg v)

theorem dotProduct_map_mul (c : ℚ) (v : List ℚ) :
    dotProduct v (v.map (fun x => c * x)) = c * sumSq v := by
  induction v with
  | nil => simp [dotProduct, sumSq]
  | cons x xs ih =>
    show x * (c * x) + dotProduct xs (xs.map (fun x => c * x)) =
      c * (x * x + sumSq xs)
    rw [ih]
    ring

theorem sumSq_map_mul (c : ℚ) (v : List ℚ) :
    sumSq (v.map (fun x => c * x)) = c ^ 2 * sumSq v := by
  induction v with
  | nil => simp [sumSq]
  | cons x xs ih =>
    show c * x * (c * x) + sumSq (xs.map (fun x => c * x)) =
      c ^ 2 * (x * x + sumSq xs)
    rw [ih]
    ring

theorem vecNorm_map_mul (c : ℚ) (hc : 0 ≤ c) (v : List ℚ) :
    vecNorm (v.map (fun x => c * x)) = (c : ℝ) * vecNorm v := by
  unfold vecNorm
  rw [sumSq_map_mul]
  have hcast : (((c ^ 2 * sumSq v : ℚ)) : ℝ) =
      ((c : ℝ)) ^ 2 * ((sumSq v : ℚ) : ℝ) := by push_cast; ring
  rw [hcast, Real.sqrt_mul (sq_nonneg _),
    Real.sqrt_sq (by exact_mod_cast hc)]

/-- Claim C2.  The cosine score is 0.0 on a length mismatch or a zero
magnitude, otherwise the normalized dot product; identical nonzero
vectors score exactly 1.0, any positive multiple of a nonzero vector
scores exactly 1.0 against it, and in particular ten 1s against ten 5s
scores exactly 1.0. -/
theorem cosine_similarity_spec :
    (∀ v w : List ℚ, v.length ≠ w.length → cosine_similarity v w = 0) ∧
    (∀ v w : List ℚ, vecNorm v = 0 ∨ vecNorm w = 0 →
      cosine_similarity v w = 0) ∧
    (∀ v w : List ℚ, v.length = w.length → vecNorm v ≠ 0 → vecNorm w ≠ 0 →
      cosine_similarity v w =
        (dotProduct v w : ℝ) / (vecNorm v * vecNorm w)) ∧
    (∀ v : List ℚ, sumSq v ≠ 0 → cosine_similarity v v = 1) ∧
    (∀ (v : List ℚ) (c : ℚ), 0 < c → sumSq v ≠ 0 →
      cosine_similarity v (v.map (fun x => c * x)) = 1) ∧
    cosine_similarity (List.replicate 10 1) (List.replicate 10 5) = 1 := by
  have hzero : ∀ v w : List ℚ, vecNorm v = 0 ∨ vecNorm w = 0 →
      cosine_similarity v w = 0 := by
    intro v w h
    unfold cosine_similarity
    by_cases hlen : v.length ≠ w.length
    · rw [if_pos hlen]
    · rw [if_neg hlen, if_pos h]
  have hvalue : ∀ v w : List ℚ, v.length = w.length → vecNorm v ≠ 0 →
      vecNorm w ≠ 0 → cosine_similarity v w =
        (dotProduct v w : ℝ) / (vecNorm v * vecNorm w) := by
    intro v w hlen hv hw
    unfold cosine_similarity
    rw [if_neg (by omega), if_neg (by rintro (h | h) <;> [exact hv h; exact hw h])]
  have hself : ∀ v : List ℚ, sumSq v ≠ 0 → cosine_similarity v v = 1 := by
    intro v hv
    have hnorm : vecNorm v ≠ 0 := fun h => hv ((vecNorm_eq_zero_iff v).mp h)
    rw [hvalue v v rfl hnorm hnorm, dotProduct_self, vecNorm_mul_self]
    exact div_self (by exact_mod_cast hv)
  have hprop : ∀ (v : List ℚ) (c : ℚ), 0 < c → sumSq v ≠ 0 →
      cosine_similarity v (v.map (fun x => c * x)) = 1 := by
    intro v c hcpos hv
    have hnorm : vecNorm v ≠ 0 := fun h => hv ((vecNorm_eq_zero_iff v).mp h)
    have hnorm2 : vecNorm (v.map (fun x => c * x)) ≠ 0 := by
      rw [vecNorm_map_mul c (le_of_lt hcpos)]
      exact mul_ne_zero (by exact_mod_cast ne_of_gt hcpos) hnorm
    rw [hvalue v _ (by rw [List.length_map]) hnorm hnorm2,
      dotProduct_map_mul, vecNorm_map_mul c (le_of_lt hcpos)]
    have hS : ((sumSq v : ℚ) : ℝ) ≠ 0 := by exact_mod_cast hv
    have hc0 : ((c : ℚ) : ℝ) ≠ 0 := by exact_mod_cast ne_of_gt hcpos
    rw [show vecNorm v * ((c : ℝ) * vecNorm v) =
        (c : ℝ) * (vecNorm v * vecNorm v) by ring, vecNorm_mul_self]
    push_cast
    rw [div_self (mul_ne_zero hc0 hS)]
  refine ⟨fun v w h => by unfold cosine_similarity; rw [if_pos h],
    hzero, hvalue, hself, hprop, ?_⟩
  have hrepl : (List.replicate 10 (1 : ℚ)).map (fun x => 5 * x) =
      List.replicate 10 (5 : ℚ) := by
    rw [List.map_replicate]
    norm_num
  have hS : sumSq (List.replicate 10 (1 : ℚ)) ≠ 0 := by
    norm_num [sumSq, List.map_replicate, List.sum_replicate]
  have := hprop (List.replicate 10 1) 5 (by norm_num) hS
  rwa [hrepl] at this

theorem cosine_similarity_spec_witness :
    cosine_similarity [1, 2] [1, 2, 3] = 0 ∧
    cosine_similarity [1, 2] [1, 2] = 1 := by
  refine ⟨cosine_similarity_spec.1 [1, 2] [1, 2, 3] (by decide), ?_⟩
  exact cosine_similarity_spec.2.2.2.1 [1, 2] (by norm_num [sumSq])


/-! ## C3: symmetry and cache canonicalization -/

theorem getCachedCompatibility_comm (cache : List CompatibilityCache)
    (u1 u2 : Nat) (now : Int) :
    getCachedCompatibility cache u1 u2 now =
      getCachedCompatibility cache u2 u1 now := by
  unfold getCachedCompatibility
  rw [canonicalPair_comm]

theorem cacheCompatibility_comm (cache : List CompatibilityCache)
    (u1 u2 : Nat) (s : ℝ) (now : Int) :
    cacheCompatibility cache u1 u2 s now =
      cacheCompatibility cache u2 u1 s now := by
  unfold cacheCompatibility CompatibilityCache.make
  rw [canonicalPair_comm]

theorem cosine_similarity_comm (v w : List ℚ) :
    cosine_similarity v w = cosine_similarity w v := by
  unfold cosine_similarity
  by_cases hlen : v.length = w.length
  · have h1 : ¬(v.length ≠ w.length) := fun h => h hlen
    have h2 : ¬(w.length ≠ v.length) := fun h => h hlen.symm
    rw [if_neg h1, if_neg h2]
    by_cases hn : vecNorm v = 0 ∨ vecNorm w = 0
    · rw [if_pos hn, if_pos (Or.symm hn)]
    · rw [if_neg hn, if_neg (fun h => hn (Or.symm h)), dotProduct_comm,
        mul_comm]
  · have h1 : v.length ≠ w.length := hlen
    have h2 : w.length ≠ v.length := fun h => hlen h.symm
    rw [if_pos h1, if_pos h2]

theorem calculate_compatibility_score_comm (db : ScoringDB)
    (u1 u2 : Nat) (now : Int) :
    calculate_compatibility_score db u1 u2 now =
      calculate_compatibility_score db u2 u1 now := by
  unfold calculate_compatibility_score
  rw [getCachedCompatibility_comm]
  cases getCachedCompatibility db.compatibility_cache u2 u1 now with
  | some s => rfl
  | none =>
    simp only
    rw [Bool.or_comm]
    split
    · rfl
    · rw [cosine_similarity_comm, cacheCompatibility_comm]

theorem cacheWellFormed_apply (cache : List CompatibilityCache)
    (op : CacheOp) (h : cacheWellFormed cache) :
    cacheWellFormed (applyCacheOp cache op) := by
  cases op with
  | read => exact h
  | write u1 u2 s now =>
    obtain ⟨hle, hpw⟩ := h
    show cacheWellFormed (cacheCompatibility cache u1 u2 s now)
    unfold cacheCompatibility
    constructor
    · intro e he
      rcases List.mem_append.mp he with he | he
      · exact hle e (List.mem_filter.mp he).1
      · rw [List.mem_singleton.mp he]
        exact canonicalPair_le u1 u2
    · rw [List.pairwise_append]
      refine ⟨hpw.sublist (List.filter_sublist _),
        List.pairwise_singleton _ _, ?_⟩
      intro a ha b hb hkey
      rw [List.mem_singleton.mp hb] at hkey
      have hpred := (List.mem_filter.mp ha).2
      rw [Bool.not_eq_eq_eq_not, Bool.not_true, Bool.and_eq_false_iff] at hpred
      have hk1 : a.user1_id = (canonicalPair u1 u2).1 :=
        congrArg Prod.fst hkey
      have hk2 : a.user2_id = (canonicalPair u1 u2).2 :=
        congrArg Prod.snd hkey
      rcases hpred with hp | hp
      · rw [beq_eq_false_iff_ne] at hp
        exact hp hk1
      · rw [beq_eq_false_iff_ne] at hp
        exact hp hk2

/-- Claim C3.  Compatibility scoring is symmetric in its two user ids
(both the returned value and the resulting state), and after any
sequence of cache reads and writes, in either argument order, every
live cache row is stored under the canonical `(min, max)` key with at
most one row per unordered pair. -/
theorem compatibility_symmetric_and_cache_canonical :
    (∀ (db : ScoringDB) (u1 u2 : Nat) (now : Int),
      calculate_compatibility_score db u1 u2 now =
        calculate_compatibility_score db u2 u1 now) ∧
    (∀ ops : List CacheOp, cacheWellFormed (runCacheOps ops)) := by
  refine ⟨calculate_compatibility_score_comm, ?_⟩
  intro ops
  have hgen : ∀ (l : List CacheOp) (init : List CompatibilityCache),
      cacheWellFormed init → cacheWellFormed (l.foldl applyCacheOp init) := by
    intro l
    induction l with
    | nil => exact fun init h => h
    | cons op rest ih =>
      exact fun init h => ih _ (cacheWellFormed_apply _ _ h)
  exact hgen ops [] ⟨fun e he => absurd he (List.not_mem_nil e),
    List.Pairwise.nil⟩


/-! ## C4, C5: choice recording -/

/-- When no recorded choice is dated after `now`, the code's count of
rows with `choice_date >= start of today` is exactly the count of rows
dated in the current UTC day. -/
theorem code_count_eq_todayChoiceCount (db : ChoiceDB) (uid : Nat)
    (now : Int) (hdates : ∀ c ∈ db.user_choices, c.choice_date ≤ now) :
    (db.user_choices.filter (fun c =>
      c.user_id == uid && decide (c.choice_date ≥ startOfDay now))).length =
      todayChoiceCount db uid now := by
  unfold todayChoiceCount
  congr 1
  apply List.filter_congr
  intro c hc
  have hle := hdates c hc
  by_cases hu : (c.user_id == uid) = true
  · rw [hu, Bool.true_and, Bool.true_and]
    rw [decide_eq_decide]
    unfold startOfDay dateOf secondsPerDay
    omega
  · rw [Bool.not_eq_true] at hu
    rw [hu, Bool.false_and, Bool.false_and]

/-- Claim C4.  With both users present, all recorded choices dated no
later than `now`, and the day's count not above the quota (1 standard,
3 premium), the endpoint fails with the daily-limit error — writing
nothing — exactly when that count already equals the quota. -/
theorem make_user_choice_quota (db : ChoiceDB) (uid cid : Nat) (u : User)
    (now : Int)
    (hu : db.users.find? (fun x => x.id == uid) = some u)
    (hc : (db.users.find? (fun x => x.id == cid)).isSome = true)
    (hdates : ∀ c ∈ db.user_choices, c.choice_date ≤ now)
    (hquota : todayChoiceCount db uid now ≤ if u.is_premium then 3 else 1) :
    ((make_user_choice db uid cid now).2 =
        Except.error ApiError.dailyLimitExceeded ∧
      (make_user_choice db uid cid now).1 = db) ↔
      todayChoiceCount db uid now = (if u.is_premium then 3 else 1) := by
  obtain ⟨cu, hcu⟩ := Option.isSome_iff_exists.mp hc
  simp only [make_user_choice, hu, hcu]
  rw [code_count_eq_todayChoiceCount db uid now hdates]
  by_cases hge : todayChoiceCount db uid now ≥
      (if u.is_premium = true then 3 else 1)
  · rw [if_pos hge]
    exact ⟨fun _ => le_antisymm hquota hge, fun _ => ⟨rfl, rfl⟩⟩
  · rw [if_neg hge]
    constructor
    · rintro ⟨h, -⟩
      exact absurd h (by simp)
    · intro h
      exact absurd (le_of_eq h.symm) hge

theorem make_user_choice_quota_witness :
    ((make_user_choice dbC4 1 2 100).2 =
        Except.error ApiError.dailyLimitExceeded ∧
      (make_user_choice dbC4 1 2 100).1 = dbC4) ∧
    (make_user_choice dbC4p 8 2 100).2 =
      Except.ok ⟨7, 8, 2, 100, false⟩ ∧
    ((make_user_choice dbC4p3 8 2 100).2 =
        Except.error ApiError.dailyLimitExceeded ∧
      (make_user_choice dbC4p3 8 2 100).1 = dbC4p3) := by
  refine ⟨(make_user_choice_quota dbC4 1 2 femA 100 (by decide) (by decide)
    (by decide) (by decide)).mpr (by decide), rfl,
    (make_user_choice_quota dbC4p3 8 2 femP 100 (by decide) (by decide)
      (by decide) (by decide)).mpr (by decide)⟩

theorem find?_first_of_prefix {p : UserChoice → Bool} :
    ∀ (pre : List UserChoice) (r : UserChoice) (post : List UserChoice),
      (∀ x ∈ pre, p x = false) → p r = true →
      List.find? p (pre ++ r :: post) = some r
  | [], r, post, _, hr => by
    rw [List.nil_append, List.find?_cons_of_pos _ hr]
  | x :: xs, r, post, hpre, hr => by
    rw [List.cons_append,
      List.find?_cons_of_neg _ (by
        have := hpre x (List.mem_cons_self x xs)
        rw [this]
        exact Bool.false_ne_true),
      find?_first_of_prefix xs r post
        (fun y hy => hpre y (List.mem_cons_of_mem x hy)) hr]

theorem setReverseMatched_of_prefix (a b : Nat) :
    ∀ (pre : List UserChoice) (r : UserChoice) (post : List UserChoice),
      (∀ x ∈ pre, (x.user_id == a && x.chosen_user_id == b) = false) →
      (r.user_id == a && r.chosen_user_id == b) = true →
      setReverseMatched (pre ++ r :: post) a b =
        pre ++ ({ r with is_match := true } : UserChoice) :: post
  | [], r, post, _, hr => by
    rw [List.nil_append, List.nil_append, setReverseMatched, if_pos hr]
  | x :: xs, r, post, hpre, hr => by
    rw [List.cons_append, setReverseMatched,
      if_neg (by
        have := hpre x (List.mem_cons_self x xs)
        rw [this]
        exact Bool.false_ne_true),
      setReverseMatched_of_prefix a b xs r post
        (fun y hy => hpre y (List.mem_cons_of_mem x hy)) hr,
      List.cons_append]

/-- Claim C5.  On a successful choice: if no reverse choice row exists
the new row is appended with `matched = false`; if the reverse rows
start at `r` (any earlier date — the lookup is date-unbounded), both
the updated `r` and the appended new row carry `matched = true`. -/
theorem make_user_choice_mutual_match (db : ChoiceDB) (uid cid : Nat)
    (u : User) (now : Int)
    (hu : db.users.find? (fun x => x.id == uid) = some u)
    (hc : (db.users.find? (fun x => x.id == cid)).isSome = true)
    (hq : (db.user_choices.filter (fun c =>
        c.user_id == uid && decide (c.choice_date ≥ startOfDay now))).length <
      if u.is_premium then 3 else 1) :
    (db.user_choices.find? (fun c =>
        c.user_id == cid && c.chosen_user_id == uid) = none →
      (make_user_choice db uid cid now).1.user_choices =
        db.user_choices ++ [⟨db.next_choice_id, uid, cid, now, false⟩]) ∧
    (∀ (pre : List UserChoice) (r : UserChoice) (post : List UserChoice),
      db.user_choices = pre ++ r :: post →
      (∀ x ∈ pre, ¬(x.user_id = cid ∧ x.chosen_user_id = uid)) →
      r.user_id = cid → r.chosen_user_id = uid →
      (make_user_choice db uid cid now).1.user_choices =
        (pre ++ ({ r with is_match := true } : UserChoice) :: post) ++
          [⟨db.next_choice_id, uid, cid, now, true⟩]) := by
  have hcu := Option.isSome_iff_exists.mp hc
  obtain ⟨cu, hcu⟩ := hcu
  constructor
  · intro hrev
    simp only [make_user_choice, hu, hcu]
    rw [if_neg (by omega), hrev]
    rfl
  · intro pre r post hsplit hpre hra hrb
    have hprefalse : ∀ x ∈ pre,
        (x.user_id == cid && x.chosen_user_id == uid) = false := by
      intro x hx
      rw [Bool.and_eq_false_iff]
      by_cases h1 : x.user_id = cid
      · right
        rw [beq_eq_false_iff_ne]
        exact fun h2 => hpre x hx ⟨h1, h2⟩
      · left
        rw [beq_eq_false_iff_ne]
        exact h1
    have hrtrue : (r.user_id == cid && r.chosen_user_id == uid) = true := by
      rw [Bool.and_eq_true, beq_iff_eq, beq_iff_eq]
      exact ⟨hra, hrb⟩
    have hfind : db.user_choices.find? (fun c =>
        c.user_id == cid && c.chosen_user_id == uid) = some r := by
      rw [hsplit]
      exact find?_first_of_prefix pre r post hprefalse hrtrue
    simp only [make_user_choice, hu, hcu]
    rw [if_neg (by omega), hfind]
    simp only [Option.isSome_some, if_pos]
    rw [hsplit, setReverseMatched_of_prefix cid uid pre r post
      hprefalse hrtrue]

theorem make_user_choice_mutual_match_witness :
    (make_user_choice dbC5 1 2 100).1.user_choices =
      [⟨0, 2, 1, 50, true⟩, ⟨7, 1, 2, 100, true⟩] := by
  have h := (make_user_choice_mutual_match dbC5 1 2 femA 100 (by decide)
    (by decide) (by decide)).2 [] ⟨0, 2, 1, 50, false⟩ [] rfl
    (by intro x hx; exact absurd hx (List.not_mem_nil x)) rfl rfl
  simpa using h


/-! ## C6: exclusion windows -/

/-- Claim C6.  A freshly generated selection never contains the user
themself, never contains a user chosen by them within the last 30 days,
and never contains a candidate shown in one of their selections within
the last 7 days. -/
theorem generate_daily_selection_excludes (score : Nat → Nat → ℚ)
    (db : MatchDB) (uid : Nat) (now : Int)
    (c : DailySelectionCandidate)
    (hc : c ∈ (generate_daily_selection score db uid now).2) :
    c.user_id ≠ uid ∧
    (∀ r ∈ db.user_choices, r.user_id = uid →
      r.choice_date > now - days 30 → r.chosen_user_id ≠ c.user_id) ∧
    (∀ s ∈ db.daily_selections, s.user_id = uid →
      s.selection_date > now - days 7 → s.candidate_user_id ≠ c.user_id) := by
  obtain ⟨user, hfind, cand, hcand, hid, -, -, -, -, -⟩ :=
    generate_mem_characterize hc
  obtain ⟨-, hexcl, -⟩ := mem_potential_candidates hcand
  have hnotmem : cand.id ∉ _get_excluded_user_ids db uid now := by
    intro hmem
    rw [show (_get_excluded_user_ids db uid now).contains cand.id =
        (_get_excluded_user_ids db uid now).elem cand.id from rfl,
      List.elem_eq_true_of_mem hmem] at hexcl
    exact absurd hexcl (by decide)
  rw [mem_excluded_user_ids] at hnotmem
  push_neg at hnotmem
  obtain ⟨hself, hrev⟩ := hnotmem
  refine ⟨hid ▸ hself, ?_, ?_⟩
  · intro r hr hru hrd heq
    exact hrev.1 r hr hru hrd (heq.trans hid)
  · intro sel hs hsu hsd heq
    exact hrev.2 sel hs hsu hsd (heq.trans hid)

theorem generate_daily_selection_excludes_witness :
    (⟨2, "B", 27, "L", 1, 1⟩ : DailySelectionCandidate) ∈
      (generate_daily_selection scOne dbC6 1 0).2 ∧
    (⟨2, "B", 27, "L", 1, 1⟩ : DailySelectionCandidate).user_id ≠ 1 := by
  have hm : (⟨2, "B", 27, "L", 1, 1⟩ : DailySelectionCandidate) ∈
      (generate_daily_selection scOne dbC6 1 0).2 := by decide
  exact ⟨hm, (generate_daily_selection_excludes scOne dbC6 1 0 _ hm).1⟩


/-! ## C7: same-day idempotence of `get_today_selection` -/

theorem dateOf_noon (t : Int) :
    dateOf (startOfDay t + hours 12) = dateOf t := by
  simp only [dateOf, startOfDay, hours, secondsPerDay]
  omega

theorem todaySelections_congr (db : MatchDB) (uid : Nat) {now1 now2 : Int}
    (h : dateOf now1 = dateOf now2) :
    todaySelections db uid now1 = todaySelections db uid now2 := by
  unfold todaySelections
  rw [h]

theorem get_today_selection_read (score : Nat → Nat → ℚ) (db : MatchDB)
    (uid : Nat) (now : Int)
    (h : (todaySelections db uid now).isEmpty = false) :
    get_today_selection score db uid now =
      (db, (todaySelections db uid now).filterMap (fun s =>
        (db.users.find? (fun u => u.id == s.candidate_user_id)).map (fun u =>
          ⟨u.id, u.first_name, u.age, u.location_city,
           s.compatibility_score, s.rank_position⟩))) := by
  simp only [get_today_selection]
  rw [h, if_neg (by decide)]

theorem get_today_selection_gen (score : Nat → Nat → ℚ) (db : MatchDB)
    (uid : Nat) (now : Int)
    (h : (todaySelections db uid now).isEmpty = true) :
    get_today_selection score db uid now =
      generate_daily_selection score db uid now := by
  simp only [get_today_selection]
  rw [h, if_pos rfl]

theorem generate_daily_selection_unknown_user (score : Nat → Nat → ℚ)
    (db : MatchDB) (uid : Nat) (now : Int)
    (h : db.users.find? (fun u => u.id == uid) = none) :
    generate_daily_selection score db uid now = (db, []) := by
  unfold generate_daily_selection
  rw [h]

theorem generate_fst_eq_store (score : Nat → Nat → ℚ) (db : MatchDB)
    (uid : Nat) (now : Int) (user : User)
    (hfind : db.users.find? (fun u => u.id == uid) = some user) :
    (generate_daily_selection score db uid now).1 =
      _store_daily_selection db uid
        (generate_daily_selection score db uid now).2 now := by
  unfold generate_daily_selection
  rw [hfind]

theorem rankCandidates_rank_gt {c : DailySelectionCandidate} :
    ∀ {i : Nat} {l : List (User × ℚ)}, c ∈ rankCandidates i l →
      i < c.rank_position := by
  intro i l
  induction l generalizing i with
  | nil => intro h; simp [rankCandidates] at h
  | cons p rest ih =>
    obtain ⟨u, s⟩ := p
    intro h
    rw [rankCandidates] at h
    rcases List.mem_cons.mp h with h | h
    · subst h
      exact Nat.lt_succ_self i
    · exact Nat.lt_of_succ_lt (ih h)

theorem rankCandidates_pairwise_rank :
    ∀ (i : Nat) (l : List (User × ℚ)),
      (rankCandidates i l).Pairwise
        (fun a b => a.rank_position ≤ b.rank_position)
  | _, [] => List.Pairwise.nil
  | i, (u, s) :: rest => by
    rw [rankCandidates]
    exact List.Pairwise.cons
      (fun b hb => le_of_lt (rankCandidates_rank_gt hb))
      (rankCandidates_pairwise_rank (i + 1) rest)

theorem generate_output_pairwise_rank (score : Nat → Nat → ℚ)
    (db : MatchDB) (uid : Nat) (now : Int) :
    ((generate_daily_selection score db uid now).2).Pairwise
      (fun a b => a.rank_position ≤ b.rank_position) := by
  unfold generate_daily_selection
  cases db.users.find? (fun u => u.id == uid) with
  | none => exact List.Pairwise.nil
  | some user => exact rankCandidates_pairwise_rank 0 _

theorem generate_out_consistent (score : Nat → Nat → ℚ) (db : MatchDB)
    (uid : Nat) (now : Int) (c : DailySelectionCandidate)
    (hc : c ∈ (generate_daily_selection score db uid now).2) :
    ∃ u ∈ db.users, u.id = c.user_id ∧ u.first_name = c.first_name ∧
      u.age = c.age ∧ u.location_city = c.location_city := by
  obtain ⟨user, -, cand, hcand, hid, hname, hage, hcity, -, -⟩ :=
    generate_mem_characterize hc
  exact ⟨cand, (mem_potential_candidates hcand).1, hid.symm, hname.symm,
    hage.symm, hcity.symm⟩

theorem todaySelections_after_store (db : MatchDB) (uid : Nat)
    (out : List DailySelectionCandidate) (now1 now2 : Int)
    (hday : dateOf now1 = dateOf now2)
    (hpw : out.Pairwise (fun a b => a.rank_position ≤ b.rank_position)) :
    todaySelections (_store_daily_selection db uid out now1) uid now2 =
      out.map (fun c => (⟨uid, c.user_id, c.compatibility_score,
        startOfDay now1 + hours 12, c.rank_position⟩ : DailySelection)) := by
  unfold todaySelections _store_daily_selection
  simp only
  rw [List.filter_append]
  have hkept : ((db.daily_selections.filter (fun s =>
      !(s.user_id == uid && dateOf s.selection_date ==
        dateOf (startOfDay now1 + hours 12)))).filter (fun s =>
      s.user_id == uid && dateOf s.selection_date == dateOf now2)) = [] := by
    rw [List.filter_filter, dateOf_noon, hday]
    have : ∀ s : DailySelection,
        ((s.user_id == uid && dateOf s.selection_date == dateOf now2) &&
          !(s.user_id == uid && dateOf s.selection_date == dateOf now2)) =
          false := fun s => Bool.and_not_self _
    calc db.daily_selections.filter _ =
        db.daily_selections.filter (fun _ => false) :=
          List.filter_congr (fun s _ => this s)
      _ = [] := List.filter_false _
  have hnew : (out.map (fun c => (⟨uid, c.user_id, c.compatibility_score,
      startOfDay now1 + hours 12, c.rank_position⟩ : DailySelection))).filter
        (fun s => s.user_id == uid &&
          dateOf s.selection_date == dateOf now2) =
      out.map (fun c => (⟨uid, c.user_id, c.compatibility_score,
        startOfDay now1 + hours 12, c.rank_position⟩ : DailySelection)) := by
    rw [List.filter_eq_self]
    intro s hs
    obtain ⟨c, hc, hrow⟩ := List.mem_map.mp hs
    rw [← hrow]
    simp [dateOf_noon, hday]
  rw [hkept, hnew, List.nil_append]
  apply List.Sorted.insertionSort_eq
  exact List.pairwise_map.mpr hpw

theorem find?_of_id_nodup :
    ∀ (users : List User), (users.map (fun u => u.id)).Nodup →
      ∀ u ∈ users, users.find? (fun x => x.id == u.id) = some u
  | [], _, u, hu => absurd hu (List.not_mem_nil u)
  | v :: vs, hnd, u, hu => by
    rcases List.mem_cons.mp hu with h | h
    · subst h
      exact List.find?_cons_of_pos _ (by simp)
    · by_cases hvu : v.id = u.id
      · exfalso
        rw [List.map_cons, List.nodup_cons] at hnd
        apply hnd.1
        rw [hvu]
        exact List.mem_map_of_mem (fun u => u.id) h
      · have hstep : List.find? (fun x => x.id == u.id) (v :: vs) =
            List.find? (fun x => x.id == u.id) vs :=
          List.find?_cons_of_neg _ (by simp [hvu])
        rw [hstep]
        exact find?_of_id_nodup vs
          (by rw [List.map_cons, List.nodup_cons] at hnd; exact hnd.2) u h

theorem readBack_rankCandidates (users : List User)
    (hnd : (users.map (fun u => u.id)).Nodup) (uid : Nat) (d : Int) :
    ∀ l : List DailySelectionCandidate,
      (∀ cand ∈ l, ∃ u ∈ users, u.id = cand.user_id ∧
        u.first_name = cand.first_name ∧ u.age = cand.age ∧
        u.location_city = cand.location_city) →
      ((l.map (fun c => (⟨uid, c.user_id, c.compatibility_score, d,
          c.rank_position⟩ : DailySelection))).filterMap
        (fun s => (users.find? (fun x => x.id == s.candidate_user_id)).map
          (fun u => (⟨u.id, u.first_name, u.age, u.location_city,
            s.compatibility_score, s.rank_position⟩ :
              DailySelectionCandidate)))) = l
  | [], _ => rfl
  | c :: cs, hcons => by
    obtain ⟨u, hu, hid, hname, hage, hcity⟩ :=
      hcons c (List.mem_cons_self c cs)
    have hfind : users.find? (fun x => x.id == c.user_id) = some u := by
      rw [← hid]
      exact find?_of_id_nodup users hnd u hu
    simp only [List.map_cons, List.filterMap_cons, hfind, Option.map_some']
    rw [readBack_rankCandidates users hnd uid d cs
      (fun x hx => hcons x (List.mem_cons_of_mem c hx))]
    obtain ⟨cid, cname, cage, ccity, cscore, crank⟩ := c
    simp_all

/-- Claim C7 (counterexample).  When the first call of the day stores an
*empty* selection, the second same-day call regenerates; because the
30-day exclusion window slides between the calls, it can return a
different (here nonempty) list. -/
theorem get_today_selection_second_call_differs :
    dateOf 2592100 = dateOf 2592110 ∧
    (get_today_selection scOne dbC7 1 2592100).2 = [] ∧
    (get_today_selection scOne
        (get_today_selection scOne dbC7 1 2592100).1 1 2592110).2 =
      [⟨2, "B", 27, "L", 1, 1⟩] := by decide

/-- Claim C7 (amended).  If the first call of the day returns a
*nonempty* list then a second same-day call (with no intervening state
change, over a user table with unique ids) returns the identical list,
and it takes the stored-selection branch: the stored rows for the day
are nonempty at the second call. -/
theorem get_today_selection_idempotent_of_nonempty
    (score : Nat → Nat → ℚ) (db : MatchDB) (uid : Nat) (now1 now2 : Int)
    (hnd : (db.users.map (fun u => u.id)).Nodup)
    (hday : dateOf now1 = dateOf now2)
    (hne : (get_today_selection score db uid now1).2 ≠ []) :
    (get_today_selection score
        (get_today_selection score db uid now1).1 uid now2).2 =
      (get_today_selection score db uid now1).2 ∧
    todaySelections (get_today_selection score db uid now1).1 uid now2 ≠
      [] := by
  by_cases hempty : (todaySelections db uid now1).isEmpty = true
  · -- first call generates
    have hg := get_today_selection_gen score db uid now1 hempty
    cases hfind : db.users.find? (fun u => u.id == uid) with
    | none =>
      exfalso
      apply hne
      rw [hg, generate_daily_selection_unknown_user score db uid now1 hfind]
    | some user =>
      have hfst : (get_today_selection score db uid now1).1 =
          _store_daily_selection db uid
            (generate_daily_selection score db uid now1).2 now1 := by
        rw [hg, generate_fst_eq_store score db uid now1 user hfind]
      have hout : (get_today_selection score db uid now1).2 =
          (generate_daily_selection score db uid now1).2 := by rw [hg]
      have hpw := generate_output_pairwise_rank score db uid now1
      have hts : todaySelections
          (get_today_selection score db uid now1).1 uid now2 =
          (generate_daily_selection score db uid now1).2.map
            (fun c => (⟨uid, c.user_id, c.compatibility_score,
              startOfDay now1 + hours 12, c.rank_position⟩ :
                DailySelection)) := by
        rw [hfst]
        exact todaySelections_after_store db uid _ now1 now2 hday hpw
      have houtne : (generate_daily_selection score db uid now1).2 ≠ [] := by
        rw [← hout]
        exact hne
      have hrowsne : (generate_daily_selection score db uid now1).2.map
          (fun c => (⟨uid, c.user_id, c.compatibility_score,
            startOfDay now1 + hours 12, c.rank_position⟩ :
              DailySelection)) ≠ [] := by
        cases hout2 : (generate_daily_selection score db uid now1).2 with
        | nil => exact absurd hout2 houtne
        | cons c cs => exact List.cons_ne_nil _ _
      refine ⟨?_, by rw [hts]; exact hrowsne⟩
      have hread := get_today_selection_read score
        (get_today_selection score db uid now1).1 uid now2 (by
          rw [hts]
          cases hout2 : (generate_daily_selection score db uid now1).2 with
          | nil => exact absurd hout2 houtne
          | cons c cs => rfl)
      rw [hread]
      simp only
      have husers : (get_today_selection score db uid now1).1.users =
          db.users := by
        rw [hfst]
        rfl
      rw [hts, husers, hout]
      exact readBack_rankCandidates db.users hnd uid
        (startOfDay now1 + hours 12)
        (generate_daily_selection score db uid now1).2
        (fun cand hcand =>
          generate_out_consistent score db uid now1 cand hcand)
  · -- first call reads the stored selection
    rw [Bool.not_eq_true] at hempty
    have hr1 := get_today_selection_read score db uid now1 hempty
    have hcong := todaySelections_congr db uid hday
    have hempty2 : (todaySelections db uid now2).isEmpty = false := by
      rw [← hcong]
      exact hempty
    have hne2 : todaySelections db uid now2 ≠ [] := by
      intro h
      rw [h] at hempty2
      exact absurd hempty2 (by decide)
    have hr2 := get_today_selection_read score db uid now2 hempty2
    constructor
    · rw [hr1]
      simp only
      rw [hr2]
      simp only
      rw [← hcong]
    · rw [hr1]
      simp only
      exact hne2

theorem get_today_selection_idempotent_witness :
    (get_today_selection scOne
        (get_today_selection scOne dbC6 1 100).1 1 200).2 =
      (get_today_selection scOne dbC6 1 100).2 ∧
    todaySelections (get_today_selection scOne dbC6 1 100).1 1 200 ≠
      [] := by
  exact get_today_selection_idempotent_of_nonempty scOne dbC6 1 100 200
    (by decide) (by decide) (by decide)


theorem get_potential_candidates_spec_witness :
    manB ∈ _get_potential_candidates dbC6 femA [1] ∧
    manB.is_active = true ∧ manB.gender ≠ femA.gender ∧
    (_get_potential_candidates dbC6 femA [1]).length ≤ 50 := by
  have hm : manB ∈ _get_potential_candidates dbC6 femA [1] := by decide
  obtain ⟨-, hact, -, hgen, -, -⟩ :=
    (get_potential_candidates_spec dbC6 femA [1]).1 manB hm
  exact ⟨hm, hact, hgen, (get_potential_candidates_spec dbC6 femA [1]).2⟩

theorem get_matching_candidates_max_results_witness :
    get_matching_candidates scOne dbC6 1 [] (some 0) 0 =
      get_matching_candidates scOne dbC6 1 [] none 0 ∧
    get_matching_candidates scOne dbC6 1 [] (some 11) 0 =
      get_matching_candidates scOne dbC6 1 [] (some 10) 0 ∧
    ([⟨2, "B", 27, "L", 1, 1⟩] : List DailySelectionCandidate).length ≤ 5 ∧
    ([⟨2, "B", 27, "L", 1, 1⟩] : List DailySelectionCandidate) ≠ [] := by
  have h := get_matching_candidates_max_results scOne dbC6 1 [] 0
  have h3 := h.2.2 [⟨2, "B", 27, "L", 1, 1⟩] (by decide)
  exact ⟨h.1, h.2.1 11 (by omega), h3.1, h3.2 (by decide)⟩

end GoldWen
